import Mathlib

/-!
Verification of the `sniff` packet sniffer (src/main.rs, src/conf.rs).

The development shallowly embeds the data model and the operations of the
program: strings are lists of characters, machine integers are `Nat`
(with explicit bounds where they matter), fallible Rust code returns
`Option`/`Except`, and the Rust panics reachable in the modelled code are
explicit `none`/`panicked` results.  External collaborators (the capture
provider, serde_json, the DNS resolver, clap) are parameters of the
functions that call them.
-/

set_option maxRecDepth 10000

namespace Sniff

/-- Strings are modelled as lists of characters. -/
abbrev Str := List Char

/-- `conf.rs`: `pub struct MacAddr { octets: [u8; 6] }`.  The six octets are
modelled as a list of naturals. -/
structure MacAddr where
  octets : List Nat
deriving DecidableEq, Repr

/-- `conf.rs`: `pub struct IpV4 { pub octets: [u8; 4] }`. -/
structure IpV4 where
  octets : List Nat
deriving DecidableEq, Repr

/-- `conf.rs`: `pub struct IpV6 { pub octets: [u8; 16] }`. -/
structure IpV6 where
  octets : List Nat
deriving DecidableEq, Repr

/-- `conf.rs`: `pub enum IpAddr { V4(IpV4), V6(IpV6) }`. -/
inductive IpAddr where
  | V4 (ip : IpV4)
  | V6 (ip : IpV6)
deriving DecidableEq, Repr

/-- `conf.rs`: `pub enum Protocol { Tcp, Udp, Icmp, Unknown }`. -/
inductive Protocol where
  | Tcp
  | Udp
  | Icmp
  | Unknown
deriving DecidableEq, Repr

/-- `conf.rs` lines 271-280, `impl From<u8> for Protocol`:
`1 => Icmp, 6 => Tcp, 17 => Udp, _ => Unknown`. -/
def Protocol.fromU8 : Nat → Protocol
  | 1 => .Icmp
  | 6 => .Tcp
  | 17 => .Udp
  | _ => .Unknown

/-- `conf.rs`: `pub enum IpAddrOrHostname { Ip(IpAddr), Hostname(String) }`. -/
inductive IpAddrOrHostname where
  | Ip (ip : IpAddr)
  | Hostname (s : Str)
deriving DecidableEq, Repr

/-- `std::time::SystemTime`, represented as the duration since the epoch the
way Rust stores and serde serializes it: whole seconds plus nanoseconds
(`nanos < 10^9` for times produced by the system). -/
structure SysTime where
  secs : Nat
  nanos : Nat
deriving DecidableEq, Repr

/-- `main.rs`: `struct RequestStats` (the `FlowRecord` of the spec), with the
fields in declaration order. -/
structure RequestStats where
  protocol : Protocol
  orig_ip : IpAddr
  orig_mac : MacAddr
  dest_ip : IpAddr
  dest_mac : MacAddr
  bytes : Nat
  packets : Nat
  timestamp : SysTime
  raw : List Nat
deriving DecidableEq, Repr

/-- `main.rs`: `struct PacketLog { packets: Vec<RequestStats>, start_time: SystemTime }`. -/
structure PacketLog where
  packets : List RequestStats
  start_time : SysTime
deriving DecidableEq, Repr

/-- `conf.rs`: `pub struct Config`. -/
structure Config where
  verbose : Bool
  log_file : Option Str
  exclude_ips : Option (List IpAddrOrHostname)
  exclude_macs : Option (List MacAddr)
  filter_ips : Option (List IpAddrOrHostname)
  filter_macs : Option (List MacAddr)
  highlight_ips : Option (List IpAddrOrHostname)
  highlight_macs : Option (List MacAddr)
  protocol : Option Protocol
  load_from_file : Option Str
  real_time_playback : Bool
  hostnames : Bool
deriving DecidableEq, Repr

/-! ## String helpers mirroring the Rust standard library -/

/-- Rust `str::split(c)`: splitting never yields an empty list
(`"".split(c)` is `[""]`). -/
def splitCh (c : Char) : Str → List Str
  | [] => [[]]
  | x :: xs =>
    if x = c then [] :: splitCh c xs
    else
      match splitCh c xs with
      | [] => [[x]]
      | y :: ys => (x :: y) :: ys

/-- Decimal rendering of an unsigned integer, as Rust `Display` for the
integer types prints it. -/
def natRepr (n : Nat) : Str := (Nat.repr n).toList

/-- One decimal digit. -/
def isDigitCh (c : Char) : Bool := '0' ≤ c && c ≤ '9'

/-- Value of a decimal digit list (all characters already checked). -/
def digitsVal (cs : Str) : Nat :=
  cs.foldl (fun acc c => acc * 10 + (c.toNat - '0'.toNat)) 0

/-- Rust `u8::from_str` (used by `octet.parse::<u8>()` in `IpV4::from_str`):
an optional leading `+`, then one or more decimal digits, value at most
255; anything else is an error. -/
def u8Parse (cs : Str) : Option Nat :=
  let body := match cs with
    | '+' :: rest => rest
    | other => other
  if body = [] then none
  else if body.all isDigitCh then
    let v := digitsVal body
    if v ≤ 255 then some v else none
  else none

/-- One hexadecimal digit. -/
def isHexDigitCh (c : Char) : Bool :=
  ('0' ≤ c && c ≤ '9') || ('a' ≤ c && c ≤ 'f') || ('A' ≤ c && c ≤ 'F')

/-- Value of a hexadecimal digit. -/
def hexDigitVal (c : Char) : Nat :=
  if '0' ≤ c && c ≤ '9' then c.toNat - '0'.toNat
  else if 'a' ≤ c && c ≤ 'f' then c.toNat - 'a'.toNat + 10
  else c.toNat - 'A'.toNat + 10

/-- Rust `u16::from_str_radix(s, 16)` (used by `IpV6::from_str`): optional
leading `+`, one or more hex digits, value at most 65535. -/
def u16HexParse (cs : Str) : Option Nat :=
  let body := match cs with
    | '+' :: rest => rest
    | other => other
  if body = [] then none
  else if body.all isHexDigitCh then
    let v := body.foldl (fun acc c => acc * 16 + hexDigitVal c) 0
    if v ≤ 65535 then some v else none
  else none

/-- The octet-parsing loop of `IpV4::from_str` (`conf.rs` lines 113-123):
parse each part as a `u8`, failing on the first part that is not one. -/
def parseOctets : List Str → Option (List Nat)
  | [] => some []
  | s :: rest =>
    match u8Parse s, parseOctets rest with
    | some v, some vs => some (v :: vs)
    | _, _ => none

/-- `conf.rs` lines 98-127, `impl FromStr for IpV4`: split on `.`, require
exactly four parts, parse each as a `u8`. -/
def ipv4FromStr (s : Str) : Option IpV4 :=
  let str_octets := splitCh '.' s
  if str_octets.length ≠ 4 then none
  else
    match parseOctets str_octets with
    | some octets => some ⟨octets⟩
    | none => none

/-- The group-parsing loop of `IpV6::from_str` (`conf.rs` lines 144-154):
parse each part as a hexadecimal `u16`. -/
def parseHexGroups : List Str → Option (List Nat)
  | [] => some []
  | s :: rest =>
    match u16HexParse s, parseHexGroups rest with
    | some v, some vs => some (v :: vs)
    | _, _ => none

/-- `conf.rs` lines 129-185, `impl FromStr for IpV6`: split on `:`, require
exactly eight parts, parse each as a hexadecimal `u16`, then split every
`u16` into its high and low byte. -/
def ipv6FromStr (s : Str) : Option IpV6 :=
  let str_octets := splitCh ':' s
  if str_octets.length ≠ 8 then none
  else
    match parseHexGroups str_octets with
    | some groups => some ⟨(groups.map (fun g => [g / 256, g % 256])).flatten⟩
    | none => none

/-- `conf.rs` lines 193-203, `impl FromStr for IpAddr`: a string containing a
colon is parsed as IPv6, otherwise as IPv4. -/
def ipAddrFromStr (s : Str) : Option IpAddr :=
  if s.contains ':' then (ipv6FromStr s).map .V6
  else (ipv4FromStr s).map .V4

/-- `conf.rs` lines 320-328, `impl From<&str> for IpAddrOrHostname`: a string
containing a colon is parsed as an IP address (`.unwrap()` panics, modelled
as `none`, when the parse fails); any other string becomes a hostname. -/
def ipAddrOrHostnameFrom (s : Str) : Option IpAddrOrHostname :=
  if s.contains ':' then (ipAddrFromStr s).map .Ip
  else some (.Hostname s)

/-- Lowercase one ASCII character, as `char::to_ascii_lowercase`. -/
def asciiLower (c : Char) : Char :=
  if 'A' ≤ c && c ≤ 'Z' then Char.ofNat (c.toNat + 32) else c

/-- Rust `str::to_ascii_lowercase`. -/
def toAsciiLowercase (s : Str) : Str := s.map asciiLower

/-- `conf.rs` lines 282-293, `impl FromStr for Protocol`: every arm returns
`Ok`, so parsing never fails; names other than tcp/udp/icmp (after ASCII
lowercasing) give `Unknown`. -/
def protocol_from_str (s : Str) : Except Unit Protocol :=
  let l := toAsciiLowercase s
  if l = "tcp".toList then .ok .Tcp
  else if l = "udp".toList then .ok .Udp
  else if l = "icmp".toList then .ok .Icmp
  else .ok .Unknown

/-- `conf.rs` lines 400-403, the `protocol` field of the `Config` built by
`get_conf`: a parsed `Unknown` protocol argument is mapped to `None`, any
other argument is kept. -/
def getConfProtocol : Option Protocol → Option Protocol
  | some .Unknown => none
  | x => x

/-! ## Display implementations (`conf.rs` lines 410-454) -/

/-- `impl Display for IpV4`: the four octets in dotted decimal. -/
def ipv4Display (ip : IpV4) : Str :=
  natRepr (ip.octets.getD 0 0) ++ ('.' :: (natRepr (ip.octets.getD 1 0) ++
    ('.' :: (natRepr (ip.octets.getD 2 0) ++ ('.' :: natRepr (ip.octets.getD 3 0))))))

/-- Lowercase hexadecimal rendering of a natural, as Rust formats with
`{:x}` (no leading zeros, `0` for zero). -/
def hexRepr (n : Nat) : Str := (Nat.toDigits 16 n).map asciiLower

/-- `impl Display for IpV6`: the sixteen bytes are regrouped into eight
16-bit groups, printed in lowercase hex separated by colons. -/
def ipv6Display (ip : IpV6) : Str :=
  let group := fun (i : Nat) =>
    hexRepr ((ip.octets.getD (2 * i) 0) * 256 + ip.octets.getD (2 * i + 1) 0)
  group 0 ++ ':' :: group 1 ++ ':' :: group 2 ++ ':' :: group 3 ++
  ':' :: group 4 ++ ':' :: group 5 ++ ':' :: group 6 ++ ':' :: group 7

/-- `impl Display for IpAddr`. -/
def ipAddrDisplay : IpAddr → Str
  | .V4 ip => ipv4Display ip
  | .V6 ip => ipv6Display ip

/-! ## Frame Normalizer (`main.rs` lines 93-120) -/

/-- A captured link-layer frame after the (external) `EthernetPacket` view:
source and destination MAC, the 16-bit ethertype and the ethernet payload
(`ether.payload()`, the network-layer datagram). -/
structure EtherFrame where
  src_mac : MacAddr
  dest_mac : MacAddr
  ethertype : Nat
  payload : List Nat
deriving DecidableEq, Repr

/-- `main.rs`: `struct ProcessedPacket`. -/
structure ProcessedPacket where
  orig_mac : MacAddr
  dest_mac : MacAddr
  protocol : Protocol
  payload : List Nat
deriving DecidableEq, Repr

/-- `EtherTypes::Ipv4`. -/
def etherTypeIpv4 : Nat := 0x0800

/-- `EtherTypes::Ipv6`. -/
def etherTypeIpv6 : Nat := 0x86DD

/-- Outcome of one iteration of the capture loop on one frame: the code can
panic (array index out of bounds / `unwrap` of a failed parse), silently
skip the frame (`continue`), or hand the processed packet and the two
network addresses to the aggregation step. -/
inductive NormResult where
  | panicked
  | ignored
  | forwarded (p : ProcessedPacket) (orig_ip dest_ip : IpAddr)
deriving DecidableEq, Repr

/-- `main.rs` lines 93-120.  `ether.payload()[9]` panics when the payload has
fewer than 10 bytes.  For an IPv4 ethertype, `Ipv4Packet::new(..).unwrap()`
panics when the payload is shorter than the 20-byte minimum IPv4 header;
the source is bytes 12..16 and the destination bytes 16..20.  For EVERY
other ethertype the payload is parsed as IPv6: `Ipv6Packet::new` yields
`None` (the frame is skipped via `continue`) when the payload is shorter
than the 40-byte IPv6 header, else the source is bytes 8..24 and the
destination bytes 24..40. -/
def normalizeFrame (f : EtherFrame) : NormResult :=
  if f.payload.length < 10 then .panicked
  else
    let p : ProcessedPacket :=
      ⟨f.src_mac, f.dest_mac, Protocol.fromU8 (f.payload.getD 9 0), f.payload⟩
    if f.ethertype = etherTypeIpv4 then
      if f.payload.length < 20 then .panicked
      else
        .forwarded p (.V4 ⟨(f.payload.drop 12).take 4⟩)
          (.V4 ⟨(f.payload.drop 16).take 4⟩)
    else
      if f.payload.length < 40 then .ignored
      else
        .forwarded p (.V6 ⟨(f.payload.drop 8).take 16⟩)
          (.V6 ⟨(f.payload.drop 24).take 16⟩)

/-! ## Flow Aggregator (`main.rs` lines 122-164) -/

/-- The data available to one aggregation step: the processed packet, the
source and destination network address computed from the same frame, and
the frame's arrival time (the `SystemTime::now()` of that iteration). -/
structure NormFrame where
  packet : ProcessedPacket
  orig_ip : IpAddr
  dest_ip : IpAddr
  arrival : SysTime
deriving DecidableEq, Repr

/-- `main.rs` lines 135-141: the `total_bytes` accumulation loop. -/
def sumBytes (l : List ProcessedPacket) : Nat :=
  l.foldl (fun acc r => acc + r.payload.length) 0

/-- `main.rs` lines 135-141: the `total_packets` counter of the same loop. -/
def countPackets (l : List ProcessedPacket) : Nat :=
  l.foldl (fun acc _ => acc + 1) 0

/-- `main.rs` lines 143-157: the `RequestStats` built when a group is
finalized.  `buf = h :: t` is `current_requests` (nonempty at this point),
`f` the incoming frame that broke the grouping. -/
def mkStats (h : ProcessedPacket) (t : List ProcessedPacket) (f : NormFrame) :
    RequestStats where
  protocol := h.protocol
  orig_ip := f.orig_ip
  orig_mac := h.orig_mac
  dest_ip := f.dest_ip
  dest_mac := h.dest_mac
  bytes := sumBytes (h :: t)
  packets := countPackets (h :: t)
  timestamp := f.arrival
  raw := ((h :: t).map (fun x => x.payload)).flatten

/-- An emitted record, together with (for specification purposes only) the
finalized group it was computed from and the frame that terminated it. -/
abbrev Emission := RequestStats × List ProcessedPacket × NormFrame

/-- One iteration of the aggregation logic (`main.rs` lines 122-164) on the
buffer `current_requests`: an empty buffer swallows the frame; a frame
whose MAC pair matches the last buffered packet is appended; otherwise the
group is finalized into a `RequestStats`, the buffer is cleared and
restarted with the incoming frame.  The returned `Emission` carries the
record handed to `print_request` plus the ghost group/breaking-frame
data. -/
def aggStep (st : List ProcessedPacket) (f : NormFrame) :
    List ProcessedPacket × Option Emission :=
  match st with
  | [] => ([f.packet], none)
  | h :: t =>
    let lastp := (h :: t).getLast (List.cons_ne_nil h t)
    if lastp.orig_mac = f.packet.orig_mac ∧ lastp.dest_mac = f.packet.dest_mac then
      ((h :: t) ++ [f.packet], none)
    else
      ([f.packet], some (mkStats h t f, h :: t, f))

/-- The capture loop run over a list of incoming frames, threading the
`current_requests` buffer and collecting the emitted records. -/
def aggRun (st : List ProcessedPacket) (acc : List Emission) :
    List NormFrame → List ProcessedPacket × List Emission
  | [] => (st, acc)
  | f :: fs =>
    let step := aggStep st f
    aggRun step.1 (acc ++ step.2.toList) fs

/-- The whole aggregation of a frame sequence, from the initial empty
buffer: final open buffer and list of emissions. -/
def aggregate (frames : List NormFrame) : List ProcessedPacket × List Emission :=
  aggRun [] [] frames

/-! ## Filter & Highlight Pipeline (`main.rs` lines 195-345) -/

/-- `Vec::contains` on a list with decidable equality. -/
def containsX [DecidableEq α] (l : List α) (x : α) : Bool :=
  l.any (fun y => decide (y = x))

/-- The protocol gate at the top of `print_request` (lines 197-202): with a
configured protocol restriction, a record of a different protocol is
dropped. -/
def protocolGateDrops (config : Config) (stats : RequestStats) : Bool :=
  match config.protocol with
  | some p => decide (stats.protocol ≠ p)
  | none => false

/-- `a.join(".")` of Rust, on split parts. -/
def joinDot : List Str → Str
  | [] => []
  | [a] => a
  | a :: b :: rest => a ++ '.' :: joinDot (b :: rest)

/-- `main.rs` lines 237-255: domain truncation applied to a display string
that differs from the numeric form.  `disp` is the resolved string,
`fallback` the record's numeric `to_string` form used in the
zero-parts arm. -/
def truncateDomain (disp : Str) (fallback : Str) : Str :=
  let parts := splitCh '.' disp
  match parts with
  | [] => fallback
  | [a] => a
  | [a, b] => joinDot [a, b]
  | _ => joinDot (parts.drop (parts.length - 2))

/-- One endpoint's display string (`main.rs` lines 206-255): in hostname
mode the external lookup-or-numeric-fallback result (`hostLookup`,
modelling `dns_lookup::lookup_addr(..).unwrap_or(ip.to_string())`),
otherwise the record's own `to_string`; then domain truncation whenever
that string differs from the numeric form. -/
def displayAddr (hostLookup : IpAddr → Str) (hostnames : Bool) (ip : IpAddr) : Str :=
  let s := if hostnames then hostLookup ip else ipAddrDisplay ip
  if ipAddrDisplay ip ≠ s then truncateDomain s (ipAddrDisplay ip) else s

/-- Result of `print_request`, recording its observable decisions: whether
`log_to_file` was invoked, whether a line is printed, and whether the
highlight color was applied.  (The rendering of the line itself has no
bearing on any claim and is not modelled.) -/
structure PrintOutcome where
  logged : Bool
  printed : Bool
  highlighted : Bool
deriving DecidableEq, Repr

/-- `main.rs` lines 195-345, `print_request`: protocol gate, address
resolution and truncation, append-to-log (before any address check),
exclude checks, allow-list checks, highlight decision (MAC list first,
IP list only when no MAC list is configured), then render. -/
def print_request (hostLookup : IpAddr → Str) (stats : RequestStats)
    (config : Config) : PrintOutcome :=
  if protocolGateDrops config stats then ⟨false, false, false⟩
  else
    let orig_ip := displayAddr hostLookup config.hostnames stats.orig_ip
    let dest_ip := displayAddr hostLookup config.hostnames stats.dest_ip
    let logged := config.log_file.isSome
    if (match config.exclude_ips with
        | some l => containsX l (.Hostname orig_ip) || containsX l (.Hostname dest_ip)
        | none => false) then ⟨logged, false, false⟩
    else if (match config.exclude_macs with
        | some l => containsX l stats.orig_mac || containsX l stats.dest_mac
        | none => false) then ⟨logged, false, false⟩
    else if (match config.filter_ips with
        | some l => !(containsX l (.Hostname orig_ip) || containsX l (.Hostname dest_ip))
        | none => false) then ⟨logged, false, false⟩
    else if (match config.filter_macs with
        | some l => !(containsX l stats.orig_mac || containsX l stats.dest_mac)
        | none => false) then ⟨logged, false, false⟩
    else
      let hl := match config.highlight_macs with
        | some l => containsX l stats.orig_mac || containsX l stats.dest_mac
        | none =>
          match config.highlight_ips with
          | some l => containsX l (.Hostname orig_ip) || containsX l (.Hostname dest_ip)
          | none => false
      ⟨logged, true, hl⟩

/-! ## Log Store (`main.rs` lines 353-382) -/

/-- Writing `data` into a file whose current content is `file`, with the
cursor at byte `pos`: bytes under the write are overwritten, the file
grows if the write runs past the end, and bytes beyond the written range
are left untouched (there is no truncation in `write_all`). -/
def writeAt (file : Str) (pos : Nat) (data : Str) : Str :=
  file.take pos ++ data ++ file.drop (pos + data.length)

/-- `main.rs` lines 368-373: the document obtained from the current file
content — a content that fails to deserialize (`serde_json::from_str`
errors on a missing, empty or corrupt document) is replaced by an empty
document anchored at `start_time` — with the new record pushed onto the
sequence.  `parse` models `serde_json::from_str::<PacketLog>`. -/
def updatedLog (parse : Str → Option PacketLog) (content : Str)
    (stats : RequestStats) (start_time : SysTime) : PacketLog :=
  let logs := (parse content).getD ⟨[], start_time⟩
  ⟨logs.packets ++ [stats], logs.start_time⟩

/-- `main.rs` lines 353-382, `log_to_file`, as a transformation of the log
file's byte content: read the whole file, build the updated document, seek
to offset zero and `write_all` its serialization.  `ser` models
`serde_json::to_string`.  The code never calls `set_len`/truncate. -/
def log_to_file (parse : Str → Option PacketLog) (ser : PacketLog → Str)
    (content : Str) (stats : RequestStats) (start_time : SysTime) : Str :=
  writeAt content 0 (ser (updatedLog parse content stats start_time))

/-! ## Replay (`main.rs` lines 20-62) -/

/-- A `SystemTime` as an exact number of nanoseconds since the epoch.  The
code works in `f32` seconds (`as_secs_f32`); durations are modelled here
in exact nanoseconds — the positive rescaling leaves unchanged the sign
of `delta - amount_slept`, which is what decides the panic. -/
def SysTime.toNanos (t : SysTime) : Nat := t.secs * 1000000000 + t.nanos

/-- `SystemTime::duration_since`: the elapsed time, or an error when the
argument is later than `t` (for normalized times, `nanos < 10^9`, the
nanosecond order coincides with Rust's lexicographic secs/nanos order). -/
def durationSince (t t0 : SysTime) : Option Nat :=
  if t0.toNanos ≤ t.toNanos then some (t.toNanos - t0.toNanos) else none

/-- `main.rs` lines 40-54, the real-time playback loop over the remaining
records: each record's delta from `start_time` is taken
(`.duration_since(start_time).unwrap()` — a record earlier than the
anchor panics, modelled as `none`), the amount already slept is
subtracted WITHOUT any clamping, and the result is passed to
`Duration::from_secs_f32`, which panics on a negative duration (modelled
as `none`).  On success the list of slept durations is returned; each
record is also fed to `print_request`, which does not affect the pacing
computation. -/
def realTimeReplayAux (start_time : SysTime) :
    List RequestStats → Int → Option (List Int)
  | [], _ => some []
  | p :: ps, amount_slept =>
    match durationSince p.timestamp start_time with
    | none => none
    | some d =>
      let time_diff : Int := (d : Int) - amount_slept
      if time_diff < 0 then none
      else
        match realTimeReplayAux start_time ps (amount_slept + time_diff) with
        | none => none
        | some rest => some (time_diff :: rest)

/-- Real-time replay of a loaded document (`main.rs` lines 39-54). -/
def realTimeReplay (logs : PacketLog) : Option (List Int) :=
  realTimeReplayAux logs.start_time logs.packets 0

/-! ## serde_json serialization of `PacketLog`

`serde_json::to_string` output for the derived `Serialize` impls: compact
(no spaces), struct fields in declaration order, unit enum variants as
plain strings, newtype variants externally tagged, `SystemTime` as a
struct with `secs_since_epoch` and `nanos_since_epoch`. -/

/-- The character `{`. -/
def lbrace : Char := Char.ofNat 123

/-- The character `}`. -/
def rbrace : Char := Char.ofNat 125

/-- The character `"`. -/
def dquote : Char := Char.ofNat 34

/-- A JSON string literal (the strings serialized here never need escaping). -/
def jStr (s : Str) : Str := dquote :: s ++ [dquote]

/-- Comma-join. -/
def joinComma : List Str → Str
  | [] => []
  | [a] => a
  | a :: b :: rest => a ++ ',' :: joinComma (b :: rest)

/-- A JSON object from already-serialized key/value pairs. -/
def jObj (fields : List (Str × Str)) : Str :=
  lbrace :: joinComma (fields.map (fun kv => jStr kv.1 ++ ':' :: kv.2)) ++ [rbrace]

/-- A JSON array from already-serialized elements. -/
def jArr (elems : List Str) : Str := '[' :: joinComma elems ++ [']']

/-- A `Vec<u8>`/`[u8; N]` serializes as an array of numbers. -/
def serializeBytes (l : List Nat) : Str := jArr (l.map natRepr)

/-- `Protocol` is a unit-variant enum: the variant name as a string. -/
def serializeProtocol : Protocol → Str
  | .Tcp => jStr "Tcp".toList
  | .Udp => jStr "Udp".toList
  | .Icmp => jStr "Icmp".toList
  | .Unknown => jStr "Unknown".toList

/-- `MacAddr { octets: [u8; 6] }`. -/
def serializeMac (m : MacAddr) : Str :=
  jObj [("octets".toList, serializeBytes m.octets)]

/-- `IpAddr` newtype variants are externally tagged. -/
def serializeIpAddr : IpAddr → Str
  | .V4 ip => jObj [("V4".toList, jObj [("octets".toList, serializeBytes ip.octets)])]
  | .V6 ip => jObj [("V6".toList, jObj [("octets".toList, serializeBytes ip.octets)])]

/-- serde's `SystemTime` serialization. -/
def serializeSysTime (t : SysTime) : Str :=
  jObj [("secs_since_epoch".toList, natRepr t.secs),
        ("nanos_since_epoch".toList, natRepr t.nanos)]

/-- `RequestStats`, fields in declaration order. -/
def serializeRequestStats (r : RequestStats) : Str :=
  jObj [("protocol".toList, serializeProtocol r.protocol),
        ("orig_ip".toList, serializeIpAddr r.orig_ip),
        ("orig_mac".toList, serializeMac r.orig_mac),
        ("dest_ip".toList, serializeIpAddr r.dest_ip),
        ("dest_mac".toList, serializeMac r.dest_mac),
        ("bytes".toList, natRepr r.bytes),
        ("packets".toList, natRepr r.packets),
        ("timestamp".toList, serializeSysTime r.timestamp),
        ("raw".toList, serializeBytes r.raw)]

/-- `PacketLog`. -/
def serializePacketLog (l : PacketLog) : Str :=
  jObj [("packets".toList, jArr (l.packets.map serializeRequestStats)),
        ("start_time".toList, serializeSysTime l.start_time)]

/-- Models `serde_json::from_str::<PacketLog>` on the corrupt, non-JSON file
contents used below: deserialization of such contents fails.  (Only its
value on those inputs is relied upon.) -/
def parseNonJson : Str → Option PacketLog := fun _ => none

/-! ## Concrete demonstration values -/

/-- A concrete record used in witnesses and counterexamples. -/
def demoStats : RequestStats :=
  ⟨.Tcp, .V4 ⟨[1, 2, 3, 4]⟩, ⟨[0, 0, 0, 0, 0, 0]⟩, .V4 ⟨[5, 6, 7, 8]⟩,
    ⟨[17, 17, 17, 17, 17, 17]⟩, 0, 0, ⟨0, 0⟩, []⟩

/-- A corrupt log file content: 1000 junk characters, not JSON. -/
def garbageContent : Str := List.replicate 1000 'x'

/-! ## Theorems -/

/-- C1: For every append of a FlowRecord to the log (`log_to_file`): the
entire existing document is read, a missing or corrupt document is treated
as an empty one with `start_time` set to the supplied anchor, the new
record is pushed onto the sequence, and the document is rewritten in full
from offset zero — but the file is NOT truncated: after the write the file
holds the new serialization followed by whatever bytes of the previous
content lie beyond the new length, and it contains exactly the
serialization of the updated document only when the previous content is no
longer than that serialization. -/
theorem C1_append_rewrite_no_truncate
    (parse : Str → Option PacketLog) (ser : PacketLog → Str) (content : Str)
    (stats : RequestStats) (start_time : SysTime) :
    log_to_file parse ser content stats start_time
      = ser (updatedLog parse content stats start_time)
          ++ content.drop (ser (updatedLog parse content stats start_time)).length
    ∧ (parse content = none →
        (updatedLog parse content stats start_time).start_time = start_time)
    ∧ (updatedLog parse content stats start_time).packets
        = ((parse content).getD ⟨[], start_time⟩).packets ++ [stats]
    ∧ (content.length ≤ (ser (updatedLog parse content stats start_time)).length →
        log_to_file parse ser content stats start_time
          = ser (updatedLog parse content stats start_time)) := by
  refine ⟨?_, ?_, ?_, ?_⟩
  · simp [log_to_file, writeAt]
  · intro h
    simp [updatedLog, h]
  · cases hp : parse content <;> simp [updatedLog, hp]
  · intro h
    simp [log_to_file, writeAt, List.drop_eq_nil_of_le h]

/-- Witness for C1 at a concrete append onto a missing (empty) file. -/
theorem C1_append_rewrite_no_truncate_witness :
    (updatedLog parseNonJson [] demoStats ⟨0, 0⟩).start_time = ⟨0, 0⟩
    ∧ log_to_file parseNonJson serializePacketLog [] demoStats ⟨0, 0⟩
        = serializePacketLog (updatedLog parseNonJson [] demoStats ⟨0, 0⟩) :=
  ⟨(C1_append_rewrite_no_truncate parseNonJson serializePacketLog [] demoStats
      ⟨0, 0⟩).2.1 rfl,
   (C1_append_rewrite_no_truncate parseNonJson serializePacketLog [] demoStats
      ⟨0, 0⟩).2.2.2 (Nat.zero_le _)⟩

/-- C1 counterexample: appending to a corrupt log file longer than the new
serialization leaves stale bytes behind — the file does not contain
exactly the serialization of the updated document. -/
theorem C1_counterexample :
    log_to_file parseNonJson serializePacketLog garbageContent demoStats ⟨0, 0⟩
      ≠ serializePacketLog (updatedLog parseNonJson garbageContent demoStats ⟨0, 0⟩) := by
  intro h
  have hl := congrArg List.length h
  revert hl
  decide

/-- A log document whose second record's completion timestamp is out of
order (one second before the first record's). -/
def badReplayLog : PacketLog :=
  ⟨[{ demoStats with timestamp := ⟨2, 0⟩ }, { demoStats with timestamp := ⟨1, 0⟩ }],
    ⟨0, 0⟩⟩

/-- C2: the real-time replay loop does NOT clamp `delta - cumulative_slept`
to a zero floor: on a well-formed document with an out-of-order timestamp
the computed sleep duration is negative and `Duration::from_secs_f32`
panics (modelled as `none`).  The code contradicts the claim's "never
panics". -/
theorem C2_replay_panics_on_out_of_order :
    realTimeReplay badReplayLog = none := by
  decide

/-- A frame whose ethertype (0x0806, ARP) is neither IPv4 nor IPv6, with a
40-byte payload. -/
def arpFrame : EtherFrame :=
  ⟨⟨[1, 1, 1, 1, 1, 1]⟩, ⟨[2, 2, 2, 2, 2, 2]⟩, 0x0806, List.replicate 40 0⟩

/-- C3 counterexample: a frame whose ethertype is neither IPv4 nor IPv6 is
NOT ignored — the normalizer parses its payload as IPv6 and forwards it. -/
theorem C3_counterexample :
    arpFrame.ethertype ≠ etherTypeIpv4 ∧ arpFrame.ethertype ≠ etherTypeIpv6 ∧
    normalizeFrame arpFrame
      = .forwarded
          ⟨⟨[1, 1, 1, 1, 1, 1]⟩, ⟨[2, 2, 2, 2, 2, 2]⟩, .Unknown, List.replicate 40 0⟩
          (.V6 ⟨List.replicate 16 0⟩) (.V6 ⟨List.replicate 16 0⟩) := by
  decide

/-- C3 amended: every frame whose ethertype is not IPv4 (whether or not it
is IPv6) is treated as IPv6; given a payload long enough for the protocol
byte read not to panic, such a frame is ignored exactly when its payload
is too short to parse as an IPv6 header (under 40 bytes), and is forwarded
whenever the payload is at least 40 bytes. -/
theorem C3_non_ipv4_treated_as_ipv6 (f : EtherFrame)
    (hty : f.ethertype ≠ etherTypeIpv4) (hlen : 10 ≤ f.payload.length) :
    normalizeFrame f ≠ .panicked
    ∧ (normalizeFrame f = .ignored ↔ f.payload.length < 40)
    ∧ (40 ≤ f.payload.length → ∃ p o d, normalizeFrame f = .forwarded p o d) := by
  have h10 : ¬ f.payload.length < 10 := by omega
  by_cases h40 : f.payload.length < 40
  · refine ⟨?_, ?_, ?_⟩ <;>
      simp [normalizeFrame, h10, hty, h40]
  · refine ⟨?_, ?_, ?_⟩ <;>
      simp [normalizeFrame, h10, hty, h40]

/-- Witness for C3 (amended) at a concrete short IPv6 frame: an
IPv6-ethertype frame whose header cannot be parsed is ignored. -/
theorem C3_non_ipv4_treated_as_ipv6_witness :
    normalizeFrame ⟨⟨[3, 3, 3, 3, 3, 3]⟩, ⟨[4, 4, 4, 4, 4, 4]⟩, 0x86DD,
        List.replicate 12 0⟩ = .ignored :=
  ((C3_non_ipv4_treated_as_ipv6
      ⟨⟨[3, 3, 3, 3, 3, 3]⟩, ⟨[4, 4, 4, 4, 4, 4]⟩, 0x86DD, List.replicate 12 0⟩
      (by decide) (by decide)).2.1).mpr (by decide)

/-! ### Splitting and parsing lemmas -/

lemma splitCh_ne_nil (c : Char) (s : Str) : splitCh c s ≠ [] := by
  induction s with
  | nil => simp [splitCh]
  | cons x xs ih =>
    simp only [splitCh]
    split
    · simp
    · cases h : splitCh c xs with
      | nil => simp
      | cons y ys => simp

lemma splitCh_of_not_mem (c : Char) (s : Str) (h : c ∉ s) : splitCh c s = [s] := by
  induction s with
  | nil => rfl
  | cons x xs ih =>
    have hx : ¬ x = c := fun he => h (by simp [he])
    have hxs : c ∉ xs := fun hm => h (by simp [hm])
    simp only [splitCh, if_neg hx, ih hxs]

lemma splitCh_append (c : Char) (a b : Str) (h : c ∉ a) :
    splitCh c (a ++ c :: b) = a :: splitCh c b := by
  induction a with
  | nil => simp [splitCh]
  | cons x xs ih =>
    have hx : ¬ x = c := fun he => h (by simp [he])
    have hxs : c ∉ xs := fun hm => h (by simp [hm])
    show splitCh c (x :: (xs ++ c :: b)) = (x :: xs) :: splitCh c b
    simp only [splitCh, if_neg hx]
    rw [ih hxs]

/-- Decimal renderings of byte values contain no dot. -/
lemma natRepr_no_dot_fin : ∀ n : Fin 256, '.' ∉ natRepr n.val := by decide

lemma natRepr_no_dot (n : Nat) (h : n < 256) : '.' ∉ natRepr n :=
  natRepr_no_dot_fin ⟨n, h⟩

/-- `u8::from_str` parses back the decimal rendering of any byte value. -/
lemma u8Parse_natRepr_fin : ∀ n : Fin 256, u8Parse (natRepr n.val) = some n.val := by
  decide

lemma u8Parse_natRepr (n : Nat) (h : n < 256) : u8Parse (natRepr n) = some n :=
  u8Parse_natRepr_fin ⟨n, h⟩

/-- C10: for every `IpV4` value, parsing its dotted-decimal display string
returns the same value — `Display` prints the four octets in decimal
separated by dots, `from_str` splits on dots and parses each octet, and
the two compose to the identity. -/
theorem C10_ipv4_display_roundtrip (a b c d : Nat)
    (ha : a < 256) (hb : b < 256) (hc : c < 256) (hd : d < 256) :
    ipv4FromStr (ipv4Display ⟨[a, b, c, d]⟩) = some ⟨[a, b, c, d]⟩ := by
  show ipv4FromStr (natRepr a ++ ('.' :: (natRepr b ++ ('.' :: (natRepr c ++
      ('.' :: natRepr d)))))) = some ⟨[a, b, c, d]⟩
  have hsplit : splitCh '.' (natRepr a ++ ('.' :: (natRepr b ++ ('.' :: (natRepr c ++
      ('.' :: natRepr d)))))) = [natRepr a, natRepr b, natRepr c, natRepr d] := by
    rw [splitCh_append _ _ _ (natRepr_no_dot a ha),
        splitCh_append _ _ _ (natRepr_no_dot b hb),
        splitCh_append _ _ _ (natRepr_no_dot c hc),
        splitCh_of_not_mem _ _ (natRepr_no_dot d hd)]
  simp [ipv4FromStr, hsplit, parseOctets, u8Parse_natRepr a ha,
    u8Parse_natRepr b hb, u8Parse_natRepr c hc, u8Parse_natRepr d hd]

/-- Witness for C10 at a concrete address. -/
theorem C10_ipv4_display_roundtrip_witness :
    ipv4FromStr (ipv4Display ⟨[192, 168, 0, 1]⟩) = some ⟨[192, 168, 0, 1]⟩ :=
  C10_ipv4_display_roundtrip 192 168 0 1 (by decide) (by decide) (by decide)
    (by decide)

/-- C7: every frame the normalizer forwards carries the protocol read from
byte offset 9 of the network-layer payload, mapped by the table
`1 → ICMP, 6 → TCP, 17 → UDP, _ → Unknown`; an unknown protocol number is
not an error — an (IPv4) frame long enough to parse is forwarded whatever
its protocol byte holds. -/
theorem C7_protocol_identification :
    (∀ f p o d, normalizeFrame f = .forwarded p o d →
        p.protocol = Protocol.fromU8 (f.payload.getD 9 0))
    ∧ Protocol.fromU8 1 = .Icmp ∧ Protocol.fromU8 6 = .Tcp
    ∧ Protocol.fromU8 17 = .Udp
    ∧ (∀ n, n ≠ 1 → n ≠ 6 → n ≠ 17 → Protocol.fromU8 n = .Unknown)
    ∧ (∀ f : EtherFrame, f.ethertype = etherTypeIpv4 → 20 ≤ f.payload.length →
        ∃ p o d, normalizeFrame f = .forwarded p o d) := by
  refine ⟨?_, rfl, rfl, rfl, ?_, ?_⟩
  · intro f p o d h
    unfold normalizeFrame at h
    split at h
    · exact absurd h (by simp)
    · split at h
      · split at h
        · exact absurd h (by simp)
        · cases h
          rfl
      · split at h
        · exact absurd h (by simp)
        · cases h
          rfl
  · intro n h1 h6 h17
    unfold Protocol.fromU8
    split
    · exact absurd rfl h1
    · exact absurd rfl h6
    · exact absurd rfl h17
    · rfl
  · intro f hty hlen
    have h10 : ¬ f.payload.length < 10 := by omega
    have h20 : ¬ f.payload.length < 20 := by omega
    refine ⟨⟨f.src_mac, f.dest_mac, Protocol.fromU8 (f.payload.getD 9 0), f.payload⟩,
      .V4 ⟨(f.payload.drop 12).take 4⟩, .V4 ⟨(f.payload.drop 16).take 4⟩, ?_⟩
    simp [normalizeFrame, h10, hty, h20]

/-- Witness for C7 at a concrete IPv4 frame whose protocol byte is 99 (an
unrecognized protocol number): the frame is still forwarded, and its
protocol is `Unknown`. -/
theorem C7_protocol_identification_witness :
    (∃ p o d, normalizeFrame
        ⟨⟨[1, 0, 0, 0, 0, 1]⟩, ⟨[1, 0, 0, 0, 0, 2]⟩, 0x0800,
          List.replicate 9 0 ++ 99 :: List.replicate 10 0⟩ = .forwarded p o d)
    ∧ Protocol.fromU8 99 = .Unknown :=
  ⟨(C7_protocol_identification).2.2.2.2.2
      ⟨⟨[1, 0, 0, 0, 0, 1]⟩, ⟨[1, 0, 0, 0, 0, 2]⟩, 0x0800,
        List.replicate 9 0 ++ 99 :: List.replicate 10 0⟩ (by decide) (by decide),
   (C7_protocol_identification).2.2.2.2.1 99 (by decide) (by decide) (by decide)⟩

/-! ### Aggregator lemmas -/

lemma sumBytes_aux (l : List ProcessedPacket) (acc : Nat) :
    l.foldl (fun a r => a + r.payload.length) acc
      = acc + (l.map fun p => p.payload.length).sum := by
  induction l generalizing acc with
  | nil => simp
  | cons x xs ih => simp [List.foldl_cons, ih, Nat.add_assoc]

/-- The `total_bytes` loop computes the sum of the payload lengths. -/
lemma sumBytes_eq (l : List ProcessedPacket) :
    sumBytes l = (l.map fun p => p.payload.length).sum := by
  simpa using sumBytes_aux l 0

lemma countPackets_aux (l : List ProcessedPacket) (acc : Nat) :
    l.foldl (fun a _ => a + 1) acc = acc + l.length := by
  induction l generalizing acc with
  | nil => simp
  | cons x xs ih => simp [List.foldl_cons, ih]; omega

/-- The `total_packets` counter computes the group size. -/
lemma countPackets_eq (l : List ProcessedPacket) : countPackets l = l.length := by
  simpa using countPackets_aux l 0

/-- Whatever `aggStep` emits is the record built from the whole nonempty
buffer together with that buffer and the breaking frame. -/
lemma aggStep_emits (st : List ProcessedPacket) (f : NormFrame) (e : Emission)
    (h : (aggStep st f).2 = some e) :
    ∃ hd t, st = hd :: t ∧ e = (mkStats hd t f, hd :: t, f) := by
  match st with
  | [] => exact Option.noConfusion h
  | hd :: t =>
    refine ⟨hd, t, rfl, ?_⟩
    simp only [aggStep] at h
    split at h
    · exact Option.noConfusion h
    · exact (Option.some.inj h).symm

/-- Every emission of a run either was already accumulated or is produced
by `aggStep` from some buffer state and frame. -/
lemma aggRun_mem (fs : List NormFrame) :
    ∀ st acc e, e ∈ (aggRun st acc fs).2 →
      e ∈ acc ∨ ∃ st' f, (aggStep st' f).2 = some e := by
  induction fs with
  | nil =>
    intro st acc e h
    exact .inl h
  | cons f fs ih =>
    intro st acc e h
    have h2 : e ∈ (aggRun (aggStep st f).1 (acc ++ (aggStep st f).2.toList) fs).2 := h
    rcases ih (aggStep st f).1 (acc ++ (aggStep st f).2.toList) e h2 with h' | h'
    · rcases List.mem_append.mp h' with h'' | h''
      · exact .inl h''
      · refine .inr ⟨st, f, ?_⟩
        cases hs : (aggStep st f).2 with
        | none =>
          rw [hs] at h''
          simp at h''
        | some e' =>
          rw [hs] at h''
          simp at h''
          rw [h'']
    · exact .inr h'


/-- All packets buffered in one open group share one MAC pair. -/
def sharesPair (l : List ProcessedPacket) : Prop :=
  ∀ p ∈ l, ∀ q ∈ l, p.orig_mac = q.orig_mac ∧ p.dest_mac = q.dest_mac

lemma sharesPair_nil : sharesPair [] := by
  intro p hp
  simp at hp

lemma sharesPair_singleton (x : ProcessedPacket) : sharesPair [x] := by
  intro p hp q hq
  simp at hp hq
  subst hp
  subst hq
  exact ⟨rfl, rfl⟩

/-- One aggregation step keeps the buffer on a single MAC pair. -/
lemma aggStep_preserves (st : List ProcessedPacket) (f : NormFrame)
    (h : sharesPair st) : sharesPair (aggStep st f).1 := by
  match st with
  | [] => exact sharesPair_singleton f.packet
  | hd :: t =>
    simp only [aggStep]
    split
    · rename_i hpair
      show sharesPair ((hd :: t) ++ [f.packet])
      have hlast := List.getLast_mem (List.cons_ne_nil hd t)
      intro p hp q hq
      rcases List.mem_append.mp hp with hp' | hp' <;>
        rcases List.mem_append.mp hq with hq' | hq'
      · exact h p hp' q hq'
      · have h1 := h p hp' _ hlast
        simp at hq'
        subst hq'
        exact ⟨h1.1.trans hpair.1, h1.2.trans hpair.2⟩
      · have h1 := h q hq' _ hlast
        simp at hp'
        subst hp'
        exact ⟨hpair.1.symm.trans h1.1.symm, hpair.2.symm.trans h1.2.symm⟩
      · simp at hp' hq'
        subst hp'
        subst hq'
        exact ⟨rfl, rfl⟩
    · exact sharesPair_singleton f.packet

/-- The whole run keeps the buffer on a single MAC pair. -/
lemma aggRun_buffer (fs : List NormFrame) :
    ∀ st acc, sharesPair st → sharesPair (aggRun st acc fs).1 := by
  induction fs with
  | nil =>
    intro st acc h
    exact h
  | cons f fs ih =>
    intro st acc h
    exact ih _ _ (aggStep_preserves st f h)

/-- C4: for every `FlowRecord` emitted by the aggregation loop, `bytes` is
the exact sum of the payload lengths of the frames in its group and
`packets` is the run length; and every packet buffered in the open group
shares one (source MAC, destination MAC) pair. -/
theorem C4_flow_record_invariants (frames : List NormFrame) :
    (∀ r g b, (r, g, b) ∈ (aggregate frames).2 →
        r.bytes = (g.map fun p => p.payload.length).sum ∧ r.packets = g.length)
    ∧ ∀ p ∈ (aggregate frames).1, ∀ q ∈ (aggregate frames).1,
        p.orig_mac = q.orig_mac ∧ p.dest_mac = q.dest_mac := by
  constructor
  · intro r g b hmem
    rcases aggRun_mem frames [] [] (r, g, b) hmem with hacc | ⟨st', f', hstep⟩
    · exact absurd hacc (List.not_mem_nil _)
    · rcases aggStep_emits st' f' (r, g, b) hstep with ⟨hd, t, _, he⟩
      have hr : r = mkStats hd t f' := congrArg Prod.fst he
      have hg : g = hd :: t := congrArg (fun x => x.2.1) he
      subst hr
      subst hg
      exact ⟨sumBytes_eq (hd :: t), countPackets_eq (hd :: t)⟩
  · exact aggRun_buffer frames [] [] sharesPair_nil

/-- C5: every emitted `FlowRecord` takes its protocol and its source and
destination MAC from the first frame of the group, and its source and
destination network address from the frame that terminated the group (the
first frame of the next group). -/
theorem C5_flow_record_attribution (frames : List NormFrame) (r : RequestStats)
    (g : List ProcessedPacket) (b : NormFrame)
    (hmem : (r, g, b) ∈ (aggregate frames).2) :
    (∃ hd t, g = hd :: t ∧ r.protocol = hd.protocol ∧ r.orig_mac = hd.orig_mac
      ∧ r.dest_mac = hd.dest_mac)
    ∧ r.orig_ip = b.orig_ip ∧ r.dest_ip = b.dest_ip := by
  rcases aggRun_mem frames [] [] (r, g, b) hmem with hacc | ⟨st', f', hstep⟩
  · exact absurd hacc (List.not_mem_nil _)
  · rcases aggStep_emits st' f' (r, g, b) hstep with ⟨hd, t, _, he⟩
    have hr : r = mkStats hd t f' := congrArg Prod.fst he
    have hg : g = hd :: t := congrArg (fun x => x.2.1) he
    have hb : b = f' := congrArg (fun x => x.2.2) he
    subst hr
    subst hg
    subst hb
    exact ⟨⟨hd, t, rfl, rfl, rfl, rfl⟩, rfl, rfl⟩

/-- MAC pair A→B and MAC pair C→D used in the demonstration capture. -/
def macA : MacAddr := ⟨[10, 0, 0, 0, 0, 1]⟩

/-- Destination MAC of the first demonstration group. -/
def macB : MacAddr := ⟨[10, 0, 0, 0, 0, 2]⟩

/-- Source MAC of the breaking frame. -/
def macC : MacAddr := ⟨[10, 0, 0, 0, 0, 3]⟩

/-- Destination MAC of the breaking frame. -/
def macD : MacAddr := ⟨[10, 0, 0, 0, 0, 4]⟩

/-- The §8 scenario of the spec: frames A→B (10 payload bytes),
A→B (20 bytes), then a breaking frame C→D (5 bytes). -/
def demoFrames : List NormFrame :=
  [⟨⟨macA, macB, .Tcp, List.replicate 10 7⟩, .V4 ⟨[1, 1, 1, 1]⟩, .V4 ⟨[2, 2, 2, 2]⟩, ⟨1, 0⟩⟩,
   ⟨⟨macA, macB, .Tcp, List.replicate 20 8⟩, .V4 ⟨[1, 1, 1, 1]⟩, .V4 ⟨[2, 2, 2, 2]⟩, ⟨2, 0⟩⟩,
   ⟨⟨macC, macD, .Udp, List.replicate 5 9⟩, .V4 ⟨[3, 3, 3, 3]⟩, .V4 ⟨[4, 4, 4, 4]⟩, ⟨3, 0⟩⟩]

/-- The single emission the demonstration capture produces. -/
def demoEmission : Emission :=
  (mkStats ⟨macA, macB, .Tcp, List.replicate 10 7⟩ [⟨macA, macB, .Tcp, List.replicate 20 8⟩]
      ⟨⟨macC, macD, .Udp, List.replicate 5 9⟩, .V4 ⟨[3, 3, 3, 3]⟩, .V4 ⟨[4, 4, 4, 4]⟩, ⟨3, 0⟩⟩,
   [⟨macA, macB, .Tcp, List.replicate 10 7⟩, ⟨macA, macB, .Tcp, List.replicate 20 8⟩],
   ⟨⟨macC, macD, .Udp, List.replicate 5 9⟩, .V4 ⟨[3, 3, 3, 3]⟩, .V4 ⟨[4, 4, 4, 4]⟩, ⟨3, 0⟩⟩)

/-- Witness for C4 on the §8 scenario: the emitted record has
`bytes = 30` and `packets = 2`. -/
theorem C4_flow_record_invariants_witness :
    demoEmission ∈ (aggregate demoFrames).2
    ∧ demoEmission.1.bytes = 30 ∧ demoEmission.1.packets = 2 :=
  ⟨by decide,
   ((C4_flow_record_invariants demoFrames).1 demoEmission.1 demoEmission.2.1
      demoEmission.2.2 (by decide)).1.trans (by decide),
   ((C4_flow_record_invariants demoFrames).1 demoEmission.1 demoEmission.2.1
      demoEmission.2.2 (by decide)).2.trans (by decide)⟩

/-- Witness for C5 on the §8 scenario: the record's protocol and MACs come
from the first A→B frame, its addresses from the breaking C→D frame. -/
theorem C5_flow_record_attribution_witness :
    (∃ hd t, demoEmission.2.1 = hd :: t ∧ demoEmission.1.protocol = hd.protocol
      ∧ demoEmission.1.orig_mac = hd.orig_mac ∧ demoEmission.1.dest_mac = hd.dest_mac)
    ∧ demoEmission.1.orig_ip = demoEmission.2.2.orig_ip
    ∧ demoEmission.1.dest_ip = demoEmission.2.2.dest_ip :=
  C5_flow_record_attribution demoFrames demoEmission.1 demoEmission.2.1
    demoEmission.2.2 (by decide)

/-- C6: with a configured protocol restriction, a record of a different
protocol is dropped before logging; once the protocol gate is passed, a
record is logged whenever `log_file` is set — the exclude and allow-list
checks happen only after the `log_to_file` call and cannot prevent it. -/
theorem C6_log_before_filters (hostLookup : IpAddr → Str) (stats : RequestStats)
    (config : Config) :
    (∀ p, config.protocol = some p → stats.protocol ≠ p →
        print_request hostLookup stats config = ⟨false, false, false⟩)
    ∧ (protocolGateDrops config stats = false → config.log_file.isSome = true →
        (print_request hostLookup stats config).logged = true) := by
  constructor
  · intro p hp hne
    have hgate : protocolGateDrops config stats = true := by
      simp [protocolGateDrops, hp, hne]
    simp [print_request, hgate]
  · intro hgate hlog
    simp only [print_request, hgate, Bool.false_eq_true, if_false]
    split
    · exact hlog
    · split
      · exact hlog
      · split
        · exact hlog
        · split
          · exact hlog
          · exact hlog

/-- A configuration that logs to a file while excluding the displayed
source address of `demoStats`. -/
def demoLogConfig : Config :=
  ⟨false, some "log.json".toList, some [.Hostname "1.2.3.4".toList], none, none, none,
    none, none, none, none, false, false⟩

/-- A configuration whose protocol restriction is UDP. -/
def demoUdpConfig : Config :=
  ⟨false, some "log.json".toList, none, none, none, none, none, none, some .Udp,
    none, false, false⟩

/-- Witness for C6: a TCP record against a UDP restriction produces no log
and no output; without a protocol restriction the record is logged even
though its displayed source address is in the exclude list (and the line
is indeed not printed). -/
theorem C6_log_before_filters_witness :
    print_request (fun _ => []) demoStats demoUdpConfig = ⟨false, false, false⟩
    ∧ (print_request (fun _ => []) demoStats demoLogConfig).logged = true
    ∧ (print_request (fun _ => []) demoStats demoLogConfig).printed = false :=
  ⟨(C6_log_before_filters (fun _ => []) demoStats demoUdpConfig).1 .Udp rfl
      (by decide),
   (C6_log_before_filters (fun _ => []) demoStats demoLogConfig).2 (by decide) rfl,
   by decide⟩

/-- The Hostname entries of an address list. -/
def isHostnameEntry : IpAddrOrHostname → Bool
  | .Hostname _ => true
  | .Ip _ => false

/-- Dropping the `Ip`-variant entries of an address list. -/
def eraseIpEntries (l : List IpAddrOrHostname) : List IpAddrOrHostname :=
  l.filter isHostnameEntry

/-- A `Config` with the `Ip`-variant entries removed from all three IP
lists. -/
def configEraseIpEntries (c : Config) : Config :=
  { c with
    exclude_ips := c.exclude_ips.map eraseIpEntries
    filter_ips := c.filter_ips.map eraseIpEntries
    highlight_ips := c.highlight_ips.map eraseIpEntries }

lemma containsX_hostname_erase (l : List IpAddrOrHostname) (s : Str) :
    containsX (eraseIpEntries l) (.Hostname s) = containsX l (.Hostname s) := by
  induction l with
  | nil => rfl
  | cons x xs ih =>
    cases x with
    | Ip ip => simp [eraseIpEntries, List.filter, isHostnameEntry, containsX] at ih ⊢; exact ih
    | Hostname h => simp [eraseIpEntries, List.filter, isHostnameEntry, containsX] at ih ⊢; rw [ih]

/-- C8: an IP-list entry whose string contains a colon is (when parsing does
not abort the program) the `Ip` variant, and the membership tests of
`print_request` compare entries only against `Hostname`-wrapped display
strings — so removing every `Ip`-variant entry from the exclude, filter
and highlight lists never changes the outcome: IPv6-literal entries have
no effect. -/
theorem C8_ipv6_entries_inert :
    (∀ (s : Str) (r : IpAddrOrHostname), s.contains ':' = true →
        ipAddrOrHostnameFrom s = some r → ∃ ip, r = .Ip ip)
    ∧ ∀ (hostLookup : IpAddr → Str) (stats : RequestStats) (config : Config),
        print_request hostLookup stats (configEraseIpEntries config)
          = print_request hostLookup stats config := by
  constructor
  · intro s r hc hr
    unfold ipAddrOrHostnameFrom at hr
    rw [if_pos hc] at hr
    cases hip : ipAddrFromStr s with
    | none => rw [hip] at hr; exact Option.noConfusion hr
    | some ip =>
      rw [hip] at hr
      exact ⟨ip, (Option.some.inj hr).symm⟩
  · intro hostLookup stats config
    obtain ⟨v, lf, ei, em, fi, fm, hi, hm, pr, lff, rtp, hn⟩ := config
    cases ei <;> cases fi <;> cases hi <;>
      simp [print_request, configEraseIpEntries, protocolGateDrops,
        containsX_hostname_erase]

/-- A configuration that excludes a (full-form) IPv6 literal entry. -/
def demoV6Config : Config :=
  ⟨false, none, some [.Ip (.V6 ⟨[0, 1, 0, 2, 0, 3, 0, 4, 0, 5, 0, 6, 0, 7, 0, 8]⟩)],
    none, none, none, none, none, none, none, false, false⟩

/-- Witness for C8: the literal `1:2:3:4:5:6:7:8` parses to an `Ip` entry,
and removing `Ip` entries from a concrete config leaves `print_request`
unchanged. -/
theorem C8_ipv6_entries_inert_witness :
    (∃ ip, IpAddrOrHostname.Ip (.V6 ⟨[0, 1, 0, 2, 0, 3, 0, 4, 0, 5, 0, 6, 0, 7, 0, 8]⟩)
        = .Ip ip)
    ∧ print_request (fun _ => []) demoStats (configEraseIpEntries demoV6Config)
        = print_request (fun _ => []) demoStats demoV6Config :=
  ⟨C8_ipv6_entries_inert.1 "1:2:3:4:5:6:7:8".toList
      (.Ip (.V6 ⟨[0, 1, 0, 2, 0, 3, 0, 4, 0, 5, 0, 6, 0, 7, 0, 8]⟩)) (by decide)
      (by decide),
   C8_ipv6_entries_inert.2 (fun _ => []) demoStats demoV6Config⟩

/-- C9: `Protocol::from_str` returns `Ok` for every input — any name other
than tcp/udp/icmp (case-insensitively) parses to `Unknown` rather than an
error — `get_conf` maps a parsed `Unknown` argument to `None`, and with no
configured protocol the gate never drops and the record's protocol has no
influence on the outcome. -/
theorem C9_unrecognized_protocol_unrestricted :
    (∀ s : Str, (protocol_from_str s).isOk = true)
    ∧ (∀ s : Str, toAsciiLowercase s ≠ "tcp".toList → toAsciiLowercase s ≠ "udp".toList →
        toAsciiLowercase s ≠ "icmp".toList → protocol_from_str s = .ok .Unknown)
    ∧ getConfProtocol (some .Unknown) = none
    ∧ ∀ (hostLookup : IpAddr → Str) (stats : RequestStats) (config : Config)
        (q : Protocol), config.protocol = none →
        protocolGateDrops config stats = false
        ∧ print_request hostLookup { stats with protocol := q } config
            = print_request hostLookup stats config := by
  refine ⟨?_, ?_, rfl, ?_⟩
  · intro s
    simp only [protocol_from_str]
    split
    · rfl
    · split
      · rfl
      · split <;> rfl
  · intro s h1 h2 h3
    simp at h1 h2 h3
    simp [protocol_from_str, h1, h2, h3]
  · intro hostLookup stats config q hnone
    refine ⟨by simp [protocolGateDrops, hnone], ?_⟩
    simp [print_request, protocolGateDrops, hnone]

/-- Witness for C9: the unrecognized name "foo" parses to `Unknown`, and
with no configured protocol a concrete record passes the gate and its
protocol does not matter. -/
theorem C9_unrecognized_protocol_unrestricted_witness :
    protocol_from_str "foo".toList = .ok .Unknown
    ∧ (protocolGateDrops demoV6Config demoStats = false
        ∧ print_request (fun _ => []) { demoStats with protocol := .Udp } demoV6Config
            = print_request (fun _ => []) demoStats demoV6Config) :=
  ⟨C9_unrecognized_protocol_unrestricted.2.1 "foo".toList (by decide) (by decide)
      (by decide),
   C9_unrecognized_protocol_unrestricted.2.2.2 (fun _ => []) demoStats demoV6Config
      .Udp rfl⟩

end Sniff
